import Mathlib

/-!
Verification of the post-scraper collection pipeline (scraper.js).

Modelling conventions:
* JavaScript strings are `List Char`; the empty list models the empty
  string (which is falsy in JS truthiness tests).
* DOM node identity (as used by the `WeakSet` of processed nodes) is a
  numeric tag `nid`; two model nodes with the same `nid` stand for the
  same DOM object.
* DOM queries that the code performs on a node (`matches`,
  `querySelector`, `querySelectorAll`, `innerText`) are pre-resolved
  fields of the model node.
* Timers are modelled by an explicit pending-timer field together with an
  event-step relation: `deliver` is a MutationObserver callback
  invocation, `fireDebounce` is the expiry of the pending debounce timer.
-/

/-- A link descendant of a post node: resolved `href` and trimmed text. -/
structure LinkData where
  url : List Char
  text : List Char
  deriving DecidableEq

/-- An image descendant of a post node: resolved `src` and `alt` (empty when absent). -/
structure ImageData where
  src : List Char
  alt : List Char
  deriving DecidableEq

/-- A DOM node as seen by the scraper, with its relevant queries pre-resolved. -/
structure DomNode where
  /-- object identity, standing for the reference stored in the WeakSet -/
  nid : Nat
  /-- nodeType === Node.ELEMENT_NODE -/
  isElement : Bool
  /-- Value of `post.id`; the empty list models the empty (falsy) string -/
  idAttr : List Char
  /-- Value of the data-id attribute; `none` models `null` -/
  dataId : Option (List Char)
  /-- Whether the node matches the container selector -/
  matchesContainer : Bool
  /-- Whether the repost marker query finds an element inside the node -/
  hasRepostMarker : Bool
  /-- Trimmed text of the first content-selector match, when one exists -/
  contentText : Option (List Char)
  /-- Trimmed full text of the node -/
  innerText : List Char
  links : List LinkData
  images : List ImageData
  deriving DecidableEq

/-- One extracted record, as built by `extractPostData`. -/
structure Record where
  timestamp : List Char
  id : Option (List Char)
  text : List Char
  links : List LinkData
  images : List ImageData
  metadata : List (List Char × List Char)
  deriving DecidableEq

/-- One added subtree inside a MutationRecord: the added node together with
`node.querySelectorAll(config.containerSelector)` (its matching descendants
in document order). -/
structure AddedSubtree where
  root : DomNode
  matchingDescendants : List DomNode
  deriving DecidableEq

/-- One low-level mutation record (childList mutation). -/
structure MutationRecord where
  addedNodes : List AddedSubtree
  deriving DecidableEq

/-- The mutable state of the `PostScraper` instance. -/
structure ScraperState where
  /-- Current value of the content selector in the configuration -/
  contentSelector : List Char
  /-- the WeakSet `processed`, as the list of seen node identities -/
  processed : List Nat
  /-- the Set `processedIds` -/
  processedIds : List (List Char)
  collectedData : List Record
  /-- the pending debounce timer, holding the mutations captured in its closure -/
  debounceTimer : Option (List MutationRecord)
  retryCount : Nat
  /-- a MutationObserver is attached -/
  observer : Bool
  isActive : Bool
  /-- current clock reading, `new Date().toISOString()` -/
  now : List Char
  deriving DecidableEq

/-- State right after the constructor ran. -/
def initialState (now : List Char) : ScraperState :=
  { contentSelector := []
  , processed := []
  , processedIds := []
  , collectedData := []
  , debounceTimer := none
  , retryCount := 0
  , observer := false
  , isActive := false
  , now := now }

/-- Model of `extractPostData`: builds the record from a post node. -/
def extractPostData (s : ScraperState) (post : DomNode) : Record :=
  { timestamp := s.now
  , id :=
      if post.idAttr ≠ [] then some post.idAttr
      else
        match post.dataId with
        | some d => if d ≠ [] then some d else none
        | none => none
  , text :=
      match post.contentText with
      | some t => t
      | none => post.innerText
  , links := post.links
  , images := post.images
  , metadata := [] }

/-- The dedup decision implicit in the two leading guards of `processPost`. -/
def acceptsPost (s : ScraperState) (post : DomNode) : Bool :=
  if post.nid ∈ s.processed then false
  else if post.idAttr ≠ [] ∧ post.idAttr ∈ s.processedIds then false
  else true

/-- Model of `processPost`: dedup guards, mark as processed, repost short-circuit,
extraction and append. -/
def processPost (s : ScraperState) (post : DomNode) : ScraperState :=
  if post.nid ∈ s.processed then s
  else if post.idAttr ≠ [] ∧ post.idAttr ∈ s.processedIds then s
  else
    let s1 : ScraperState :=
      { s with
        processed := post.nid :: s.processed
      , processedIds :=
          if post.idAttr ≠ [] then post.idAttr :: s.processedIds else s.processedIds }
    if post.hasRepostMarker then s1
    else
      { s1 with
        collectedData := s1.collectedData ++ [extractPostData s1 post]
      , retryCount := 0 }

/-- Folding `processPost` over a list of candidate nodes. -/
def processPosts (s : ScraperState) (posts : List DomNode) : ScraperState :=
  posts.foldl processPost s

/-- Insertion into the `newPosts` Set: identity-deduplicated, insertion order. -/
def addUnique (acc : List DomNode) (post : DomNode) : List DomNode :=
  if post.nid ∈ acc.map DomNode.nid then acc else acc ++ [post]

/-- The node-collection loop of `handleMutations`: for each added element
node, add it when it matches the container selector, then add every
matching descendant. -/
def collectNewPosts (mutations : List MutationRecord) : List DomNode :=
  mutations.foldl
    (fun acc m =>
      m.addedNodes.foldl
        (fun acc2 a =>
          if a.root.isElement then
            let acc3 := if a.root.matchesContainer then addUnique acc2 a.root else acc2
            a.matchingDescendants.foldl addUnique acc3
          else acc2)
        acc)
    []

/-- Model of `handleMutations`: collect the new posts of a batch and process them. -/
def handleMutations (s : ScraperState) (mutations : List MutationRecord) : ScraperState :=
  processPosts s (collectNewPosts mutations)

/-- Model of `debouncedMutationHandler`: clears the pending timer and schedules a
fresh one whose closure captures exactly the mutations of this callback. -/
def debouncedMutationHandler (s : ScraperState) (mutations : List MutationRecord) : ScraperState :=
  { s with debounceTimer := some mutations }

/-- Model of `processExistingPosts`: the synchronous scan over the current document,
`doc` being `document.querySelectorAll(config.containerSelector)`. -/
def processExistingPosts (doc : List DomNode) (s : ScraperState) : ScraperState :=
  processPosts s doc

/-- Model of `startScraper`. -/
def startScraper (doc : List DomNode) (s : ScraperState) : ScraperState :=
  if s.isActive then s
  else
    let s1 := { s with isActive := true }
    let s2 := processExistingPosts doc s1
    { s2 with observer := true }

/-- Model of `stopScraper`. -/
def stopScraper (s : ScraperState) : ScraperState :=
  if !s.isActive then s
  else
    let s1 := { s with isActive := false }
    let s2 := if s1.observer then { s1 with observer := false } else s1
    if s2.debounceTimer.isSome then { s2 with debounceTimer := none } else s2

/-- Model of `cleanData`: empties the store and reports success. -/
def cleanData (s : ScraperState) : Bool × ScraperState :=
  (true, { s with collectedData := [] })

/-- Model of `downloadData`: fails on an empty store, otherwise encodes and saves
(the file-system side effect is outside the model). -/
def downloadData (s : ScraperState) : Bool :=
  if s.collectedData.length = 0 then false else true

/-- Decimal rendering of a natural number, as `String(value)` produces for
the numeric fields (`links.length`, `images.length`). -/
def natToChars (n : Nat) : List Char :=
  natToCharsAux (n + 1) n
where
  natToCharsAux : Nat → Nat → List Char
    | 0, _ => []
    | fuel + 1, n =>
      if n < 10 then [Char.ofNat (48 + n)]
      else natToCharsAux fuel (n / 10) ++ [Char.ofNat (48 + n % 10)]

/-- The quoting condition of `escapeCSV`: the string contains a comma, a
double quote, a line feed or a carriage return. -/
def needsQuoting (str : List Char) : Bool :=
  str.contains ',' || str.contains '"' || str.contains '\n' || str.contains '\r'

/-- Model of the global quote-doubling replace in `escapeCSV`: every double quote doubled. -/
def doubleQuotes : List Char → List Char
  | [] => []
  | c :: cs => if c = '"' then '"' :: '"' :: doubleQuotes cs else c :: doubleQuotes cs

/-- The argument shapes `escapeCSV` receives: `null`/`undefined`, a string,
or a number. -/
inductive CSVValue where
  | null : CSVValue
  | str : List Char → CSVValue
  | num : Nat → CSVValue
  deriving DecidableEq

/-- Model of `escapeCSV`. -/
def escapeCSV (value : CSVValue) : List Char :=
  match value with
  | .null => []
  | .str s => if needsQuoting s then '"' :: (doubleQuotes s ++ ['"']) else s
  | .num n =>
      if needsQuoting (natToChars n) then '"' :: (doubleQuotes (natToChars n) ++ ['"'])
      else natToChars n

/-- JavaScript `Array.prototype.join` over char-list strings. -/
def jsJoin (sep : List Char) : List (List Char) → List Char
  | [] => []
  | [x] => x
  | x :: y :: rest => x ++ sep ++ jsJoin sep (y :: rest)

/-- The fixed header cells of `convertToCSV`. -/
def csvHeaders : List (List Char) :=
  [ "Timestamp".toList
  , "Post ID".toList
  , "Post Text".toList
  , "Links Count".toList
  , "Links URLs".toList
  , "Images Count".toList
  , "Image URLs".toList ]

/-- Header cells joined by a tab, then a newline. -/
def headerRow : List Char := jsJoin ['\t'] csvHeaders ++ ['\n']

/-- One data row of `convertToCSV`: the seven escaped cells joined by a tab,
then a newline. -/
def rowOf (post : Record) : List Char :=
  jsJoin ['\t']
    [ escapeCSV (.str post.timestamp)
    , escapeCSV (match post.id with | some i => .str i | none => .null)
    , escapeCSV (.str post.text)
    , escapeCSV (.num post.links.length)
    , escapeCSV (.str (jsJoin [';', ' '] (post.links.map LinkData.url)))
    , escapeCSV (.num post.images.length)
    , escapeCSV (.str (jsJoin [';', ' '] (post.images.map ImageData.src))) ]
  ++ ['\n']

/-- Model of `convertToCSV`. -/
def convertToCSV (data : List Record) : List Char :=
  if data.length = 0 then "No data to export".toList
  else data.foldl (fun csv post => csv ++ rowOf post) headerRow

/-- CSV-aware scan: walks the text tracking whether the position is inside
a quoted cell, and counts the newlines that lie outside quotes (the
line/record terminators). Returns the final quote state and that count. -/
def csvScan : List Char → Bool → Bool × Nat
  | [], inQ => (inQ, 0)
  | c :: cs, inQ =>
    if c = '"' then csvScan cs (!inQ)
    else
      let r := csvScan cs inQ
      if c = '\n' ∧ inQ = false then (r.1, r.2 + 1) else r

/-- Number of CSV lines (records plus header) of an encoded text: the count
of record-terminating newlines, quote-aware. -/
def csvRecordLines (csv : List Char) : Nat := (csvScan csv false).2

/-- JavaScript `String.prototype.indexOf` for a single character. -/
def jsIndexOf (c : Char) : List Char → Int
  | [] => -1
  | a :: rest =>
    if a = c then 0
    else
      let r := jsIndexOf c rest
      if r = -1 then -1 else r + 1

/-- The messages `handleMessage` dispatches on. -/
inductive Request where
  | startScraper : List Char → Request
  | stopScraper : Request
  | downloadData : Request
  | getDataCount : Request
  | cleanData : Request
  | other : Request
  deriving DecidableEq

/-- The shape of the object passed to `sendResponse`. -/
structure Response where
  success : Bool
  message : Option (List Char)
  count : Option Nat
  deriving DecidableEq

/-- Model of `handleMessage`. -/
def handleMessage (doc : List DomNode) (req : Request) (s : ScraperState) :
    Response × ScraperState :=
  match req with
  | .startScraper sel =>
      if jsIndexOf '.' sel = -1 then
        let s1 := startScraper doc { s with contentSelector := '.' :: sel }
        (⟨true, some "Scraper started".toList, none⟩, s1)
      else if jsIndexOf '.' sel = 0 then
        let s1 := startScraper doc { s with contentSelector := sel }
        (⟨true, some "Scraper started".toList, none⟩, s1)
      else
        (⟨false, some "Invalid selector".toList, none⟩, s)
  | .stopScraper => (⟨true, some "Scraper stopped".toList, none⟩, stopScraper s)
  | .downloadData => (⟨downloadData s, none, some s.collectedData.length⟩, s)
  | .getDataCount => (⟨true, none, some s.collectedData.length⟩, s)
  | .cleanData =>
      let r := cleanData s
      (⟨r.1, none, some r.2.collectedData.length⟩, r.2)
  | .other => (⟨false, some "Undefined action".toList, none⟩, s)

/-- The externally triggered events of the scraper's event loop. -/
inductive ScraperEvent where
  | deliver : List MutationRecord → ScraperEvent
  | fireDebounce : ScraperEvent
  | message : Request → ScraperEvent

/-- One event-loop step. A `deliver` only happens while an observer is
attached; `fireDebounce` only has an effect while a timer is pending, and
consumes it. -/
def scraperStep (doc : List DomNode) (s : ScraperState) : ScraperEvent → ScraperState
  | .deliver ms => if s.observer then debouncedMutationHandler s ms else s
  | .fireDebounce =>
      match s.debounceTimer with
      | some ms => handleMutations { s with debounceTimer := none } ms
      | none => s
  | .message req => (handleMessage doc req s).2

/-- Folding the step function over a list of events. -/
def runEvents (doc : List DomNode) (s : ScraperState) (es : List ScraperEvent) : ScraperState :=
  es.foldl (scraperStep doc) s

/-- The states reachable from the freshly constructed scraper. -/
inductive Reachable (doc : List DomNode) (now : List Char) : ScraperState → Prop where
  | refl : Reachable doc now (initialState now)
  | step : ∀ {s} (e : ScraperEvent), Reachable doc now s → Reachable doc now (scraperStep doc s e)

/-- Two records carry the same non-empty logical id. -/
def sameNonemptyId (r1 r2 : Record) : Bool :=
  match r1.id, r2.id with
  | some x, some y => decide (x = y ∧ x ≠ [])
  | _, _ => false

/-- The store invariant of the spec: no two records with equal non-empty ids. -/
def noDupNonemptyIds : List Record → Bool
  | [] => true
  | r :: rest => rest.all (fun r2 => !sameNonemptyId r r2) && noDupNonemptyIds rest

/-- Every non-empty record id in `rs` is tracked in `pids`. -/
def idsTrackedIn (rs : List Record) (pids : List (List Char)) : Bool :=
  rs.all fun r =>
    match r.id with
    | some x => decide (x = [] ∨ x ∈ pids)
    | none => true

/-- The node carries no (non-empty) `data-id` attribute. -/
def noDataId (n : DomNode) : Bool :=
  match n.dataId with
  | none => true
  | some d => decide (d = [])

/-! ### Basic facts about the dedup guards of `processPost` -/

lemma processPost_of_mem (s : ScraperState) (post : DomNode)
    (h : post.nid ∈ s.processed) : processPost s post = s := by
  simp [processPost, h]

lemma processPost_of_idSeen (s : ScraperState) (post : DomNode)
    (h1 : post.nid ∉ s.processed) (h2 : post.idAttr ≠ [])
    (h3 : post.idAttr ∈ s.processedIds) : processPost s post = s := by
  simp [processPost, h1, h2, h3]

lemma acceptsPost_true_elim (s : ScraperState) (post : DomNode)
    (h : acceptsPost s post = true) :
    post.nid ∉ s.processed ∧ ¬(post.idAttr ≠ [] ∧ post.idAttr ∈ s.processedIds) := by
  by_cases h1 : post.nid ∈ s.processed
  · simp [acceptsPost, h1] at h
  by_cases h2 : post.idAttr ≠ [] ∧ post.idAttr ∈ s.processedIds
  · simp [acceptsPost, h1, h2] at h
  · exact ⟨h1, h2⟩

lemma acceptsPost_of_mem (s : ScraperState) (post : DomNode)
    (h : post.nid ∈ s.processed) : acceptsPost s post = false := by
  simp [acceptsPost, h]

lemma processPost_of_not_accepts (s : ScraperState) (post : DomNode)
    (h : acceptsPost s post = false) : processPost s post = s := by
  by_cases h1 : post.nid ∈ s.processed
  · exact processPost_of_mem s post h1
  by_cases h2 : post.idAttr ≠ [] ∧ post.idAttr ∈ s.processedIds
  · exact processPost_of_idSeen s post h1 h2.1 h2.2
  · simp [acceptsPost, h1, h2] at h

lemma processPost_processed_of_accepts (s : ScraperState) (post : DomNode)
    (h : acceptsPost s post = true) :
    (processPost s post).processed = post.nid :: s.processed := by
  obtain ⟨h1, h2⟩ := acceptsPost_true_elim s post h
  simp only [processPost, if_neg h1, if_neg h2]
  split <;> rfl

lemma processPost_processedIds_of_accepts (s : ScraperState) (post : DomNode)
    (h : acceptsPost s post = true) :
    (processPost s post).processedIds =
      if post.idAttr ≠ [] then post.idAttr :: s.processedIds else s.processedIds := by
  obtain ⟨h1, h2⟩ := acceptsPost_true_elim s post h
  simp only [processPost, if_neg h1, if_neg h2]
  split <;> rfl

lemma processPost_collected_of_marker (s : ScraperState) (post : DomNode)
    (hm : post.hasRepostMarker = true) :
    (processPost s post).collectedData = s.collectedData := by
  by_cases h1 : post.nid ∈ s.processed
  · rw [processPost_of_mem s post h1]
  by_cases h2 : post.idAttr ≠ [] ∧ post.idAttr ∈ s.processedIds
  · rw [processPost_of_idSeen s post h1 h2.1 h2.2]
  · simp only [processPost, if_neg h1, if_neg h2, hm, if_pos]

lemma processPost_collected_of_accepts_nomarker (s : ScraperState) (post : DomNode)
    (h : acceptsPost s post = true) (hm : post.hasRepostMarker = false) :
    (processPost s post).collectedData = s.collectedData ++ [extractPostData s post] := by
  obtain ⟨h1, h2⟩ := acceptsPost_true_elim s post h
  simp [processPost, if_neg h1, if_neg h2, hm, extractPostData]

lemma processPost_frame (s : ScraperState) (post : DomNode) :
    (processPost s post).isActive = s.isActive ∧
    (processPost s post).observer = s.observer ∧
    (processPost s post).debounceTimer = s.debounceTimer ∧
    (processPost s post).contentSelector = s.contentSelector ∧
    (processPost s post).now = s.now := by
  by_cases h1 : post.nid ∈ s.processed
  · rw [processPost_of_mem s post h1]; exact ⟨rfl, rfl, rfl, rfl, rfl⟩
  by_cases h2 : post.idAttr ≠ [] ∧ post.idAttr ∈ s.processedIds
  · rw [processPost_of_idSeen s post h1 h2.1 h2.2]; exact ⟨rfl, rfl, rfl, rfl, rfl⟩
  · simp only [processPost, if_neg h1, if_neg h2]
    split <;> exact ⟨rfl, rfl, rfl, rfl, rfl⟩

lemma processPost_processed_subset (s : ScraperState) (post : DomNode) :
    s.processed ⊆ (processPost s post).processed := by
  by_cases h : acceptsPost s post = true
  · rw [processPost_processed_of_accepts s post h]
    exact List.subset_cons_self _ _
  · rw [processPost_of_not_accepts s post (by simpa using h)]
    exact fun x hx => hx

lemma processPosts_processed_subset (ns : List DomNode) (s : ScraperState) :
    s.processed ⊆ (processPosts s ns).processed := by
  induction ns generalizing s with
  | nil => exact fun x hx => hx
  | cons n t ih =>
    exact fun x hx =>
      ih (processPost s n) (processPost_processed_subset s n hx)

lemma processPosts_frame (ns : List DomNode) (s : ScraperState) :
    (processPosts s ns).isActive = s.isActive ∧
    (processPosts s ns).observer = s.observer ∧
    (processPosts s ns).debounceTimer = s.debounceTimer ∧
    (processPosts s ns).contentSelector = s.contentSelector ∧
    (processPosts s ns).now = s.now := by
  induction ns generalizing s with
  | nil => exact ⟨rfl, rfl, rfl, rfl, rfl⟩
  | cons n t ih =>
    obtain ⟨a1, a2, a3, a4, a5⟩ := processPost_frame s n
    obtain ⟨b1, b2, b3, b4, b5⟩ := ih (processPost s n)
    exact ⟨b1.trans a1, b2.trans a2, b3.trans a3, b4.trans a4, b5.trans a5⟩

lemma processPosts_append (s : ScraperState) (ns : List DomNode) (post : DomNode) :
    processPosts s (ns ++ [post]) = processPost (processPosts s ns) post := by
  simp [processPosts, List.foldl_append]

/-- Claim C3: a node delivered twice is accepted exactly once.  The node
identity guard runs first and rejects on its own; the logical-id guard
rejects second; a fresh node is accepted on its first delivery, is then
recorded as seen, and every later delivery — after any interleaved
processing — is rejected and leaves the state unchanged. -/
theorem processPost_dedup_once (s : ScraperState) (post : DomNode) (ns : List DomNode) :
    (post.nid ∈ s.processed → processPost s post = s) ∧
    (post.nid ∉ s.processed → post.idAttr ≠ [] → post.idAttr ∈ s.processedIds →
       processPost s post = s) ∧
    (acceptsPost s post = true →
       post.nid ∈ (processPost s post).processed ∧
       acceptsPost (processPosts (processPost s post) ns) post = false ∧
       processPosts (processPost s post) (ns ++ [post]) =
         processPosts (processPost s post) ns) := by
  refine ⟨processPost_of_mem s post, fun h1 h2 h3 => processPost_of_idSeen s post h1 h2 h3, ?_⟩
  intro h
  have hmem : post.nid ∈ (processPost s post).processed := by
    rw [processPost_processed_of_accepts s post h]
    exact List.mem_cons_self _ _
  have hmem2 : post.nid ∈ (processPosts (processPost s post) ns).processed :=
    processPosts_processed_subset ns (processPost s post) hmem
  refine ⟨hmem, acceptsPost_of_mem _ post hmem2, ?_⟩
  rw [processPosts_append, processPost_of_mem _ post hmem2]

/-- Sample node: fresh, no repost marker. -/
def freshNode : DomNode :=
  ⟨7, true, ['p'], none, true, false, none, ['t','x'], [], []⟩

/-- Witness for C3 at a concrete fresh node and empty interleaving. -/
theorem processPost_dedup_once_witness :
    freshNode.nid ∈ (processPost (initialState []) freshNode).processed ∧
    acceptsPost (processPosts (processPost (initialState []) freshNode) []) freshNode = false ∧
    processPosts (processPost (initialState []) freshNode) ([] ++ [freshNode]) =
      processPosts (processPost (initialState []) freshNode) [] :=
  (processPost_dedup_once (initialState []) freshNode []).2.2 (by decide)

/-- Claim C5: a node with the repost marker contributes no record, yet is
recorded as seen, and a re-delivery of the same node is rejected without
reprocessing. -/
theorem repost_marker_skips_collection (s : ScraperState) (post : DomNode)
    (hm : post.hasRepostMarker = true) :
    (processPost s post).collectedData = s.collectedData ∧
    (acceptsPost s post = true → post.nid ∈ (processPost s post).processed) ∧
    acceptsPost (processPost s post) post = false ∧
    processPost (processPost s post) post = processPost s post := by
  refine ⟨processPost_collected_of_marker s post hm, ?_, ?_, ?_⟩
  · intro h
    rw [processPost_processed_of_accepts s post h]
    exact List.mem_cons_self _ _
  · by_cases h : acceptsPost s post = true
    · exact acceptsPost_of_mem _ post
        (by rw [processPost_processed_of_accepts s post h]; exact List.mem_cons_self _ _)
    · rw [processPost_of_not_accepts s post (by simpa using h)]
      simpa using h
  · by_cases h : acceptsPost s post = true
    · exact processPost_of_mem _ post
        (by rw [processPost_processed_of_accepts s post h]; exact List.mem_cons_self _ _)
    · rw [processPost_of_not_accepts s post (by simpa using h)]
      exact processPost_of_not_accepts s post (by simpa using h)

/-- Sample node with the repost marker. -/
def repostNode : DomNode :=
  ⟨9, true, ['r'], none, true, true, none, ['t'], [], []⟩

/-- Witness for C5 at a concrete repost-marked node. -/
theorem repost_marker_skips_collection_witness :
    (processPost (initialState []) repostNode).collectedData = (initialState []).collectedData ∧
    (acceptsPost (initialState []) repostNode = true →
       repostNode.nid ∈ (processPost (initialState []) repostNode).processed) ∧
    acceptsPost (processPost (initialState []) repostNode) repostNode = false ∧
    processPost (processPost (initialState []) repostNode) repostNode =
      processPost (initialState []) repostNode :=
  repost_marker_skips_collection (initialState []) repostNode (by decide)

/-- Claim C8: `cleanData` empties the record store and leaves every other
component of the state — dedup index, watcher state, configuration —
exactly as it was, reporting success. -/
theorem cleanData_only_clears_store (s : ScraperState) :
    (cleanData s).1 = true ∧
    (cleanData s).2.collectedData = [] ∧
    (cleanData s).2.collectedData.length = 0 ∧
    (cleanData s).2.processed = s.processed ∧
    (cleanData s).2.processedIds = s.processedIds ∧
    (cleanData s).2.isActive = s.isActive ∧
    (cleanData s).2.observer = s.observer ∧
    (cleanData s).2.debounceTimer = s.debounceTimer ∧
    (cleanData s).2.contentSelector = s.contentSelector ∧
    (cleanData s).2.retryCount = s.retryCount ∧
    (cleanData s).2.now = s.now :=
  ⟨rfl, rfl, rfl, rfl, rfl, rfl, rfl, rfl, rfl, rfl, rfl⟩

lemma startScraper_of_active (doc : List DomNode) (s : ScraperState)
    (h : s.isActive = true) : startScraper doc s = s := by
  simp [startScraper, h]

/-- Claim C10: calling `startScraper` while already active returns
immediately and changes nothing — no second scan, no second observer, no
store or dedup changes. -/
theorem startScraper_active_noop (doc : List DomNode) (s : ScraperState)
    (h : s.isActive = true) : startScraper doc s = s :=
  startScraper_of_active doc s h

/-- A concrete already-active state. -/
def sampleActiveState : ScraperState :=
  { initialState [] with isActive := true, observer := true }

/-- Witness for C10 at a concrete active state. -/
theorem startScraper_active_noop_witness :
    startScraper [] sampleActiveState = sampleActiveState :=
  startScraper_active_noop [] sampleActiveState (by decide)

/-! ### The store-id invariant (dedup by logical id) -/

lemma idsTrackedIn_iff (rs : List Record) (pids : List (List Char)) :
    idsTrackedIn rs pids = true ↔
      ∀ r ∈ rs, ∀ x, r.id = some x → x = [] ∨ x ∈ pids := by
  simp only [idsTrackedIn, List.all_eq_true]
  constructor
  · intro h r hr x hx
    have hh := h r hr
    rw [hx] at hh
    simpa using hh
  · intro h r hr
    cases hid : r.id with
    | none => rfl
    | some x =>
      show decide (x = [] ∨ x ∈ pids) = true
      exact decide_eq_true (h r hr x hid)

lemma idsTrackedIn_mono (rs : List Record) (pids pids' : List (List Char))
    (hsub : pids ⊆ pids') (h : idsTrackedIn rs pids = true) :
    idsTrackedIn rs pids' = true := by
  rw [idsTrackedIn_iff] at h ⊢
  intro r hr x hx
  rcases h r hr x hx with h1 | h1
  · exact Or.inl h1
  · exact Or.inr (hsub h1)

lemma idsTrackedIn_append (rs : List Record) (r : Record) (pids : List (List Char)) :
    idsTrackedIn (rs ++ [r]) pids = true ↔
      idsTrackedIn rs pids = true ∧ (∀ x, r.id = some x → x = [] ∨ x ∈ pids) := by
  simp only [idsTrackedIn_iff]
  constructor
  · intro h
    exact ⟨fun r2 hr2 x hx => h r2 (List.mem_append_left _ hr2) x hx,
           fun x hx => h r (List.mem_append_right _ (List.mem_singleton.mpr rfl)) x hx⟩
  · rintro ⟨h1, h2⟩ r2 hr2 x hx
    rcases List.mem_append.mp hr2 with hm | hm
    · exact h1 r2 hm x hx
    · rw [List.mem_singleton.mp hm] at hx
      exact h2 x hx

lemma sameNonemptyId_right_none (r1 r2 : Record) (h : r2.id = none) :
    sameNonemptyId r1 r2 = false := by
  cases h1 : r1.id <;> simp [sameNonemptyId, h1, h]

lemma noDupNonemptyIds_iff (rs : List Record) :
    noDupNonemptyIds rs = true ↔
      List.Pairwise (fun r1 r2 => sameNonemptyId r1 r2 = false) rs := by
  induction rs with
  | nil => simp [noDupNonemptyIds]
  | cons a t ih =>
    simp [noDupNonemptyIds, List.all_eq_true, List.pairwise_cons, ih]

lemma noDupNonemptyIds_append (rs : List Record) (r : Record) :
    noDupNonemptyIds (rs ++ [r]) = true ↔
      (noDupNonemptyIds rs = true ∧ ∀ r2 ∈ rs, sameNonemptyId r2 r = false) := by
  simp only [noDupNonemptyIds_iff, List.pairwise_append, List.pairwise_singleton,
    List.mem_singleton, true_and]
  constructor
  · rintro ⟨h1, h2⟩
    exact ⟨h1, fun r2 hr2 => h2 r2 hr2 r rfl⟩
  · rintro ⟨h1, h2⟩
    exact ⟨h1, fun a ha b hb => hb ▸ h2 a ha⟩

lemma processPost_store_inv (s : ScraperState) (post : DomNode)
    (hpost : noDataId post = true)
    (h1 : noDupNonemptyIds s.collectedData = true)
    (h2 : idsTrackedIn s.collectedData s.processedIds = true) :
    noDupNonemptyIds (processPost s post).collectedData = true ∧
    idsTrackedIn (processPost s post).collectedData (processPost s post).processedIds = true := by
  by_cases hacc : acceptsPost s post = true
  case neg =>
    rw [processPost_of_not_accepts s post (by simpa using hacc)]
    exact ⟨h1, h2⟩
  case pos =>
    have hids := processPost_processedIds_of_accepts s post hacc
    have hsub : s.processedIds ⊆ (processPost s post).processedIds := by
      rw [hids]; split
      · exact List.subset_cons_self _ _
      · exact fun x hx => hx
    by_cases hm : post.hasRepostMarker = true
    · rw [processPost_collected_of_marker s post hm]
      exact ⟨h1, idsTrackedIn_mono _ _ _ hsub h2⟩
    · have hcoll := processPost_collected_of_accepts_nomarker s post hacc (by simpa using hm)
      by_cases hA : post.idAttr = []
      · have hrid : (extractPostData s post).id = none := by
          simp only [extractPostData, hA, ne_eq, not_true_eq_false, if_false]
          cases hd : post.dataId with
          | none => rfl
          | some d =>
            have hdnil : d = [] := by
              simp only [noDataId, hd, decide_eq_true_eq] at hpost
              exact hpost
            simp [hdnil]
        have hids' : (processPost s post).processedIds = s.processedIds := by
          rw [hids, if_neg (by simpa using hA)]
        rw [hcoll, hids']
        constructor
        · rw [noDupNonemptyIds_append]
          exact ⟨h1, fun r2 _ => sameNonemptyId_right_none r2 _ hrid⟩
        · rw [idsTrackedIn_append]
          exact ⟨h2, fun x hx => by rw [hrid] at hx; cases hx⟩
      · have hrid : (extractPostData s post).id = some post.idAttr := by
          simp [extractPostData, hA]
        have hnotin : post.idAttr ∉ s.processedIds := by
          obtain ⟨g1, g2⟩ := acceptsPost_true_elim s post hacc
          exact fun hmem => g2 ⟨hA, hmem⟩
        have hids' : (processPost s post).processedIds = post.idAttr :: s.processedIds := by
          rw [hids, if_pos (by simpa using hA)]
        rw [hcoll, hids']
        constructor
        · rw [noDupNonemptyIds_append]
          refine ⟨h1, fun r2 hr2 => ?_⟩
          cases hid2 : r2.id with
          | none => simp [sameNonemptyId, hid2, hrid]
          | some y =>
            simp only [sameNonemptyId, hid2, hrid, decide_eq_false_iff_not]
            rintro ⟨rfl, hyne⟩
            have hy := (idsTrackedIn_iff _ _).mp h2 r2 hr2 _ hid2
            rcases hy with hy | hy
            · exact hyne hy
            · exact hnotin hy
        · rw [idsTrackedIn_append]
          refine ⟨idsTrackedIn_mono _ _ _ (List.subset_cons_self _ _) h2, fun x hx => ?_⟩
          rw [hrid] at hx
          cases hx
          exact Or.inr (List.mem_cons_self _ _)

lemma processPosts_store_inv (ns : List DomNode) (s : ScraperState)
    (hns : ∀ n ∈ ns, noDataId n = true)
    (h1 : noDupNonemptyIds s.collectedData = true)
    (h2 : idsTrackedIn s.collectedData s.processedIds = true) :
    noDupNonemptyIds (processPosts s ns).collectedData = true ∧
    idsTrackedIn (processPosts s ns).collectedData (processPosts s ns).processedIds = true := by
  induction ns generalizing s with
  | nil => exact ⟨h1, h2⟩
  | cons n t ih =>
    obtain ⟨g1, g2⟩ := processPost_store_inv s n (hns n (by simp)) h1 h2
    exact ih (processPost s n) (fun m hm => hns m (by simp [hm])) g1 g2

/-- Claim C2 (amended): the no-duplicate-non-empty-id store invariant is
preserved by processing any sequence of nodes whose `data-id` attribute is
absent or empty; a node whose logical identifier comes only from a
`data-id` attribute escapes the dedup index and can break the invariant. -/
theorem store_noDup_invariant (s : ScraperState) (ns : List DomNode)
    (hns : ∀ n ∈ ns, noDataId n = true)
    (h1 : noDupNonemptyIds s.collectedData = true)
    (h2 : idsTrackedIn s.collectedData s.processedIds = true) :
    noDupNonemptyIds (processPosts s ns).collectedData = true :=
  (processPosts_store_inv ns s hns h1 h2).1

/-- A node whose only identifier is a `data-id` attribute. -/
def dataIdNodeA : DomNode := ⟨1, true, [], some ['X'], true, false, none, [], [], []⟩

/-- A second, distinct node carrying the same `data-id`. -/
def dataIdNodeB : DomNode := ⟨2, true, [], some ['X'], true, false, none, [], [], []⟩

/-- Counterexample for C2 as stated: delivering two distinct nodes that both
carry `data-id` `X` (and no `id` attribute) through the watcher produces a
reachable state whose store holds two records with the same non-empty id. -/
theorem store_noDup_invariant_cex :
    noDupNonemptyIds (runEvents [] (initialState [])
      [ .message (.startScraper ['f','o','o'])
      , .deliver [⟨[⟨dataIdNodeA, []⟩, ⟨dataIdNodeB, []⟩]⟩]
      , .fireDebounce ]).collectedData = false := by decide

/-- A node identified by its `id` attribute. -/
def idAttrNode1 : DomNode := ⟨3, true, ['a'], none, true, false, none, [], [], []⟩

/-- A distinct node with the same `id` attribute. -/
def idAttrNode2 : DomNode := ⟨4, true, ['a'], none, true, false, none, [], [], []⟩

/-- Witness for the amended C2 at two concrete nodes sharing an `id`. -/
theorem store_noDup_invariant_witness :
    noDupNonemptyIds (processPosts (initialState []) [idAttrNode1, idAttrNode2]).collectedData
      = true :=
  store_noDup_invariant (initialState []) [idAttrNode1, idAttrNode2]
    (by decide) (by decide) (by decide)

/-! ### The debounce data loss -/

/-- First matching node, added in the first mutation burst. -/
def burstNodeA : DomNode := ⟨1, true, ['a'], none, true, false, none, [], [], []⟩

/-- Second matching node, added in a later burst within the debounce window. -/
def burstNodeB : DomNode := ⟨2, true, ['b'], none, true, false, none, [], [], []⟩

/-- A one-record mutation batch adding the given node. -/
def burstBatch (n : DomNode) : List MutationRecord := [⟨[⟨n, []⟩]⟩]

/-- Start, two observer callbacks inside one debounce window, then the timer
fires after the quiescent gap. -/
def burstFinalState : ScraperState :=
  runEvents [] (initialState [])
    [ .message (.startScraper ['f','o','o'])
    , .deliver (burstBatch burstNodeA)
    , .deliver (burstBatch burstNodeB)
    , .fireDebounce ]

/-- Claim C1 (code bug): rescheduling the debounce timer drops the earlier
batch — the handler resolves only the mutations of the last callback, so
after two bursts within the window only the second burst's node is
collected; the first burst's node is neither collected nor marked seen. -/
theorem debounce_drops_earlier_batches :
    burstFinalState.collectedData.map Record.id = [some ['b']] ∧
    burstNodeA.nid ∉ burstFinalState.processed ∧
    burstNodeB.nid ∈ burstFinalState.processed ∧
    burstFinalState.debounceTimer = none := by decide

/-! ### The export encoder -/

lemma doubleQuotes_eq_flatMap (s : List Char) :
    doubleQuotes s = s.flatMap fun c => if c = '"' then ['"', '"'] else [c] := by
  induction s with
  | nil => rfl
  | cons c cs ih =>
    by_cases h : c = '"' <;> simp [doubleQuotes, h, ih, List.flatMap_cons]

lemma contains_iff_mem (s : List Char) (c : Char) : s.contains c = true ↔ c ∈ s :=
  List.elem_iff

lemma needsQuoting_eq_true_iff (s : List Char) :
    needsQuoting s = true ↔ (',' ∈ s ∨ '"' ∈ s ∨ '\n' ∈ s ∨ '\r' ∈ s) := by
  simp [needsQuoting, Bool.or_eq_true, contains_iff_mem, or_assoc]

lemma needsQuoting_eq_false_iff (s : List Char) :
    needsQuoting s = false ↔ (',' ∉ s ∧ '"' ∉ s ∧ '\n' ∉ s ∧ '\r' ∉ s) := by
  rw [← Bool.not_eq_true, needsQuoting_eq_true_iff]
  tauto

lemma csvScan_append (a b : List Char) (q : Bool) :
    csvScan (a ++ b) q =
      ((csvScan b (csvScan a q).1).1, (csvScan a q).2 + (csvScan b (csvScan a q).1).2) := by
  induction a generalizing q with
  | nil => simp [csvScan]
  | cons c cs ih =>
    by_cases h : c = '"'
    · simp [csvScan, h, ih]
    · by_cases hn : c = '\n' ∧ q = false
      · simp [csvScan, h, hn, ih, Prod.ext_iff]
        omega
      · simp [csvScan, h, hn, ih]

lemma doubleQuotes_scan (s : List Char) : csvScan (doubleQuotes s) true = (true, 0) := by
  induction s with
  | nil => rfl
  | cons c cs ih =>
    by_cases h : c = '"' <;> simp [doubleQuotes, h, csvScan, ih]

lemma csvScan_no_special (s : List Char) (h1 : '"' ∉ s) (h2 : '\n' ∉ s) :
    csvScan s false = (false, 0) := by
  induction s with
  | nil => rfl
  | cons c cs ih =>
    have hc1 : ¬ c = '"' := by rintro rfl; exact h1 (List.mem_cons_self _ _)
    have hc2 : ¬ c = '\n' := by rintro rfl; exact h2 (List.mem_cons_self _ _)
    have ht := ih (fun hm => h1 (List.mem_cons_of_mem _ hm))
      (fun hm => h2 (List.mem_cons_of_mem _ hm))
    simp [csvScan, hc1, hc2, ht]

lemma escapeCSV_scan (v : CSVValue) : csvScan (escapeCSV v) false = (false, 0) := by
  have body : ∀ s : List Char,
      csvScan (if needsQuoting s then '"' :: (doubleQuotes s ++ ['"']) else s) false
        = (false, 0) := by
    intro s
    by_cases h : needsQuoting s = true
    · have step : csvScan ('"' :: (doubleQuotes s ++ ['"'])) false
          = csvScan (doubleQuotes s ++ ['"']) true := by
        simp [csvScan]
      simp only [h, if_true]
      rw [step, csvScan_append, doubleQuotes_scan]
      rfl
    · have h' : needsQuoting s = false := by simpa using h
      obtain ⟨hc, hq, hn, hr⟩ := (needsQuoting_eq_false_iff s).mp h'
      simp only [h', Bool.false_eq_true, if_false]
      exact csvScan_no_special s hq hn
  cases v with
  | null => rfl
  | str s => exact body s
  | num n => exact body (natToChars n)

lemma jsJoin_scan (sep : List Char) (hsep : csvScan sep false = (false, 0))
    (fs : List (List Char)) (h : ∀ f ∈ fs, csvScan f false = (false, 0)) :
    csvScan (jsJoin sep fs) false = (false, 0) := by
  induction fs with
  | nil => rfl
  | cons x rest ih =>
    cases rest with
    | nil => simpa [jsJoin] using h x (List.mem_cons_self _ _)
    | cons y t =>
      have hx := h x (List.mem_cons_self _ _)
      have hrest := ih (fun f hf => h f (List.mem_cons_of_mem _ hf))
      rw [jsJoin]
      simp [csvScan_append, hx, hsep, hrest]

lemma rowOf_scan (r : Record) : csvScan (rowOf r) false = (false, 1) := by
  have hfields : csvScan (jsJoin ['\t']
      [ escapeCSV (.str r.timestamp)
      , escapeCSV (match r.id with | some i => .str i | none => .null)
      , escapeCSV (.str r.text)
      , escapeCSV (.num r.links.length)
      , escapeCSV (.str (jsJoin [';', ' '] (r.links.map LinkData.url)))
      , escapeCSV (.num r.images.length)
      , escapeCSV (.str (jsJoin [';', ' '] (r.images.map ImageData.src))) ]) false
      = (false, 0) := by
    apply jsJoin_scan _ (by rfl)
    intro f hf
    simp only [List.mem_cons, List.not_mem_nil, or_false] at hf
    rcases hf with rfl | rfl | rfl | rfl | rfl | rfl | rfl <;> exact escapeCSV_scan _
  unfold rowOf
  rw [csvScan_append, hfields]
  rfl

lemma headerRow_scan : csvScan headerRow false = (false, 1) := by decide

lemma convert_foldl (data : List Record) (acc : List Char) :
    data.foldl (fun csv post => csv ++ rowOf post) acc = acc ++ (data.map rowOf).flatten := by
  induction data generalizing acc with
  | nil => simp
  | cons r t ih => simp [List.foldl_cons, ih, List.flatten_cons, List.append_assoc]

lemma rows_scan (data : List Record) :
    csvScan ((data.map rowOf).flatten) false = (false, data.length) := by
  induction data with
  | nil => rfl
  | cons r t ih =>
    simp [List.map_cons, List.flatten_cons, csvScan_append, rowOf_scan, ih, Prod.ext_iff]
    omega

/-- Claim C7: the empty store encodes to the sentinel no-data string; a
non-empty store encodes to the fixed header row followed by exactly one
data row per record, so the quote-aware line count is `1 + len(records)`. -/
theorem convertToCSV_shape (data : List Record) :
    (data = [] → convertToCSV data = "No data to export".toList) ∧
    (data ≠ [] →
       convertToCSV data = headerRow ++ (data.map rowOf).flatten ∧
       csvRecordLines (convertToCSV data) = 1 + data.length) := by
  constructor
  · rintro rfl; rfl
  · intro h
    have hlen : ¬ data.length = 0 := by simpa [List.length_eq_zero] using h
    have heq : convertToCSV data = headerRow ++ (data.map rowOf).flatten := by
      simp [convertToCSV, hlen, convert_foldl]
    refine ⟨heq, ?_⟩
    unfold csvRecordLines
    rw [heq]
    simp [csvScan_append, headerRow_scan, rows_scan]

/-- A record whose text holds a comma and an embedded line break. -/
def sampleRecord : Record :=
  ⟨['t', 's'], some ['i'], ['x', ',', 'y', '\n', 'z'], [⟨['u'], ['v']⟩], [], []⟩

/-- Witness for C7 on a one-record store with an awkward text field. -/
theorem convertToCSV_shape_witness :
    convertToCSV [sampleRecord] = headerRow ++ ([sampleRecord].map rowOf).flatten ∧
    csvRecordLines (convertToCSV [sampleRecord]) = 1 + [sampleRecord].length :=
  (convertToCSV_shape [sampleRecord]).2 (by decide)

/-- Counterexample for C4 as stated: the encoder's field separator is the
tab (`jsJoin` with a tab joins the cells of a row), yet a field containing
a tab is returned unchanged by `escapeCSV`, not wrapped in quotes. -/
theorem escapeCSV_separator_not_quoted_cex :
    '\t' ∈ ['A', '\t', 'B'] ∧
    jsJoin ['\t'] [['x'], ['y']] = ['x', '\t', 'y'] ∧
    escapeCSV (.str ['A', '\t', 'B']) = ['A', '\t', 'B'] ∧
    escapeCSV (.str ['A', '\t', 'B']) ≠ '"' :: (doubleQuotes ['A', '\t', 'B'] ++ ['"']) := by
  decide

/-- Claim C4 (amended): `escapeCSV` quotes exactly the fields containing a
comma, a double quote, or a line break (LF or CR) — the tab separator does
not trigger quoting — doubling internal quotes; other fields pass through
unchanged; `A,B"C` encodes verbatim as `"A,B""C"`. -/
theorem escapeCSV_quoting (str : List Char) :
    ((',' ∈ str ∨ '"' ∈ str ∨ '\n' ∈ str ∨ '\r' ∈ str) →
       escapeCSV (.str str) =
         '"' :: ((str.flatMap fun c => if c = '"' then ['"', '"'] else [c]) ++ ['"'])) ∧
    ((',' ∉ str ∧ '"' ∉ str ∧ '\n' ∉ str ∧ '\r' ∉ str) → escapeCSV (.str str) = str) ∧
    escapeCSV (.str ['A', ',', 'B', '"', 'C']) = ['"', 'A', ',', 'B', '"', '"', 'C', '"'] := by
  refine ⟨?_, ?_, by decide⟩
  · intro h
    have hq : needsQuoting str = true := (needsQuoting_eq_true_iff str).mpr h
    simp [escapeCSV, hq, doubleQuotes_eq_flatMap]
  · intro h
    have hq : needsQuoting str = false := (needsQuoting_eq_false_iff str).mpr h
    simp [escapeCSV, hq]

/-- Witness for the amended C4 at the spec's own example string. -/
theorem escapeCSV_quoting_witness :
    escapeCSV (.str ['A', ',', 'B', '"', 'C']) =
      '"' :: (((['A', ',', 'B', '"', 'C']).flatMap
          fun c => if c = '"' then ['"', '"'] else [c]) ++ ['"']) :=
  (escapeCSV_quoting ['A', ',', 'B', '"', 'C']).1 (by decide)

/-! ### Selector validation -/

lemma jsIndexOf_nonneg_or (c : Char) (s : List Char) :
    jsIndexOf c s = -1 ∨ 0 ≤ jsIndexOf c s := by
  induction s with
  | nil => exact Or.inl rfl
  | cons a t ih =>
    by_cases h : a = c
    · right; simp [jsIndexOf, h]
    · rcases ih with h1 | h1
      · left; simp [jsIndexOf, h, h1]
      · by_cases h2 : jsIndexOf c t = -1
        · left; simp [jsIndexOf, h, h2]
        · right
          simp only [jsIndexOf, if_neg h, if_neg h2]
          omega

lemma jsIndexOf_eq_neg_one_iff (c : Char) (s : List Char) :
    jsIndexOf c s = -1 ↔ c ∉ s := by
  induction s with
  | nil => simp [jsIndexOf]
  | cons a t ih =>
    by_cases h : a = c
    · subst h
      constructor
      · intro h0
        have hz : jsIndexOf a (a :: t) = 0 := by simp [jsIndexOf]
        omega
      · intro h0
        exact absurd (List.mem_cons_self _ _) h0
    · have hne : ¬ c = a := fun hh => h hh.symm
      constructor
      · intro h0
        rw [List.mem_cons]
        rintro (rfl | hmem)
        · exact h rfl
        · by_cases h2 : jsIndexOf c t = -1
          · exact ih.mp h2 hmem
          · rcases jsIndexOf_nonneg_or c t with h3 | h3
            · exact h2 h3
            · simp only [jsIndexOf, if_neg h, if_neg h2] at h0
              omega
      · intro h0
        have hmem : c ∉ t := fun hm => h0 (List.mem_cons_of_mem _ hm)
        simp [jsIndexOf, h, ih.mpr hmem]

lemma jsIndexOf_eq_zero_iff (c : Char) (s : List Char) :
    jsIndexOf c s = 0 ↔ s.head? = some c := by
  cases s with
  | nil =>
    constructor
    · intro h0
      have : jsIndexOf c ([] : List Char) = -1 := rfl
      omega
    · intro h0; simp at h0
  | cons a t =>
    by_cases h : a = c
    · simp [jsIndexOf, h]
    · constructor
      · intro h0
        by_cases h2 : jsIndexOf c t = -1
        · simp only [jsIndexOf, if_neg h, if_pos h2] at h0
          omega
        · rcases jsIndexOf_nonneg_or c t with h3 | h3
          · exact absurd h3 h2
          · simp only [jsIndexOf, if_neg h, if_neg h2] at h0
            omega
      · intro h0
        have : a = c := by simpa using h0
        exact absurd this h

lemma startScraper_contentSelector (doc : List DomNode) (s : ScraperState) :
    (startScraper doc s).contentSelector = s.contentSelector := by
  unfold startScraper
  split
  · rfl
  · exact ((processPosts_frame doc { s with isActive := true }).2.2.2.1).trans rfl

/-- Claim C6: on `startScraper{selector}`, a selector without a dot gets a
dot prefixed, a selector whose first character is a dot is used unchanged,
and a selector with a dot at a later position is rejected with the
invalid-selector response while the state is left untouched. -/
theorem handleMessage_selector_validation (doc : List DomNode) (s : ScraperState)
    (sel : List Char) :
    ('.' ∉ sel →
       (handleMessage doc (.startScraper sel) s).2.contentSelector = '.' :: sel ∧
       (handleMessage doc (.startScraper sel) s).1.success = true) ∧
    (sel.head? = some '.' →
       (handleMessage doc (.startScraper sel) s).2.contentSelector = sel ∧
       (handleMessage doc (.startScraper sel) s).1.success = true) ∧
    ('.' ∈ sel → sel.head? ≠ some '.' →
       (handleMessage doc (.startScraper sel) s).1 =
         ⟨false, some "Invalid selector".toList, none⟩ ∧
       (handleMessage doc (.startScraper sel) s).2 = s) := by
  refine ⟨?_, ?_, ?_⟩
  · intro h
    have h1 : jsIndexOf '.' sel = -1 := (jsIndexOf_eq_neg_one_iff _ _).mpr h
    exact ⟨by simp [handleMessage, h1, startScraper_contentSelector],
           by simp [handleMessage, h1]⟩
  · intro h
    have h0 : jsIndexOf '.' sel = 0 := (jsIndexOf_eq_zero_iff _ _).mpr h
    have h1 : ¬ jsIndexOf '.' sel = -1 := by omega
    exact ⟨by simp [handleMessage, h1, h0, startScraper_contentSelector],
           by simp [handleMessage, h1, h0]⟩
  · intro hmem hhead
    have h1 : ¬ jsIndexOf '.' sel = -1 :=
      fun hc => (jsIndexOf_eq_neg_one_iff _ _).mp hc hmem
    have h0 : ¬ jsIndexOf '.' sel = 0 :=
      fun hc => hhead ((jsIndexOf_eq_zero_iff _ _).mp hc)
    exact ⟨by simp [handleMessage, h1, h0], by simp [handleMessage, h1, h0]⟩

/-- Witness for C6 at the bare selector `foo`. -/
theorem handleMessage_selector_validation_witness :
    (handleMessage [] (.startScraper ['f', 'o', 'o']) (initialState [])).2.contentSelector
      = '.' :: ['f', 'o', 'o'] ∧
    (handleMessage [] (.startScraper ['f', 'o', 'o']) (initialState [])).1.success = true :=
  (handleMessage_selector_validation [] (initialState []) ['f', 'o', 'o']).1 (by decide)

/-! ### Stop cancels the debounce timer -/

lemma stopScraper_fields (s : ScraperState) (h : s.isActive = true) :
    (stopScraper s).debounceTimer = none ∧ (stopScraper s).observer = false ∧
    (stopScraper s).isActive = false := by
  by_cases ho : s.observer = true <;> cases ht : s.debounceTimer <;>
    simp [stopScraper, h, ho, ht]

lemma startScraper_inactive_isActive (doc : List DomNode) (s : ScraperState)
    (h : s.isActive = false) : (startScraper doc s).isActive = true := by
  unfold startScraper
  rw [if_neg (by simp [h])]
  exact ((processPosts_frame doc { s with isActive := true }).1).trans rfl

lemma handleMutations_frame (s : ScraperState) (ms : List MutationRecord) :
    (handleMutations s ms).isActive = s.isActive ∧
    (handleMutations s ms).observer = s.observer ∧
    (handleMutations s ms).debounceTimer = s.debounceTimer := by
  obtain ⟨a1, a2, a3, _, _⟩ := processPosts_frame (collectNewPosts ms) s
  exact ⟨a1, a2, a3⟩

lemma reachable_idle_inv (doc : List DomNode) (now : List Char) (s : ScraperState)
    (hr : Reachable doc now s) :
    s.isActive = false → s.debounceTimer = none ∧ s.observer = false := by
  induction hr with
  | refl => exact fun _ => ⟨rfl, rfl⟩
  | @step s' e hr ih =>
    cases e with
    | deliver ms =>
      by_cases ho : s'.observer = true
      · simp only [scraperStep, ho, if_true, debouncedMutationHandler]
        intro h
        exact absurd (ih h).2 (by simp [ho])
      · have ho' : s'.observer = false := by simpa using ho
        have heq : scraperStep doc s' (.deliver ms) = s' := by simp [scraperStep, ho']
        rw [heq]; exact ih
    | fireDebounce =>
      cases ht : s'.debounceTimer with
      | none =>
        have heq : scraperStep doc s' .fireDebounce = s' := by simp [scraperStep, ht]
        rw [heq]; exact ih
      | some ms =>
        have heq : scraperStep doc s' .fireDebounce
            = handleMutations { s' with debounceTimer := none } ms := by
          simp [scraperStep, ht]
        rw [heq]
        obtain ⟨f1, f2, f3⟩ := handleMutations_frame { s' with debounceTimer := none } ms
        intro h
        rw [f1] at h
        exact ⟨f3.trans rfl, f2.trans (ih h).2⟩
    | message req =>
      cases req with
      | startScraper sel =>
        have key : ∀ s0 : ScraperState,
            (startScraper doc s0).isActive = false →
              (startScraper doc s0).debounceTimer = none ∧
              (startScraper doc s0).observer = false := by
          intro s0 h
          by_cases ha : s0.isActive = true
          · rw [startScraper_of_active doc s0 ha] at h
            simp [h] at ha
          · have hf : s0.isActive = false := by simpa using ha
            rw [startScraper_inactive_isActive doc s0 hf] at h
            simp at h
        simp only [scraperStep]
        by_cases h1 : jsIndexOf '.' sel = -1
        · have heq : (handleMessage doc (.startScraper sel) s').2
              = startScraper doc { s' with contentSelector := '.' :: sel } := by
            simp [handleMessage, h1]
          rw [heq]; exact key _
        · by_cases h0 : jsIndexOf '.' sel = 0
          · have heq : (handleMessage doc (.startScraper sel) s').2
                = startScraper doc { s' with contentSelector := sel } := by
              simp [handleMessage, h1, h0]
            rw [heq]; exact key _
          · have heq : (handleMessage doc (.startScraper sel) s').2 = s' := by
              simp [handleMessage, h1, h0]
            rw [heq]; exact ih
      | stopScraper =>
        simp only [scraperStep, handleMessage]
        by_cases ha : s'.isActive = true
        · intro _
          exact ⟨(stopScraper_fields s' ha).1, (stopScraper_fields s' ha).2.1⟩
        · have ha' : s'.isActive = false := by simpa using ha
          have heq : stopScraper s' = s' := by simp [stopScraper, ha']
          rw [heq]; exact ih
      | downloadData => exact ih
      | getDataCount => exact ih
      | cleanData =>
        intro h
        exact ⟨(ih h).1, (ih h).2⟩
      | other => exact ih

/-- Claim C9: after `stopScraper` returns there is no pending debounce timer
(cancelled synchronously) and no observer, so neither a timer expiry nor a
mutation delivery has any effect afterwards; calling it while already idle
changes nothing. -/
theorem stopScraper_cancels_debounce (doc : List DomNode) (now : List Char)
    (s : ScraperState) (hr : Reachable doc now s) :
    (stopScraper s).debounceTimer = none ∧
    (stopScraper s).observer = false ∧
    (s.isActive = false → stopScraper s = s) ∧
    (∀ ms, scraperStep doc (stopScraper s) (.deliver ms) = stopScraper s) ∧
    scraperStep doc (stopScraper s) .fireDebounce = stopScraper s := by
  have hstop : (stopScraper s).debounceTimer = none ∧ (stopScraper s).observer = false := by
    by_cases ha : s.isActive = true
    · exact ⟨(stopScraper_fields s ha).1, (stopScraper_fields s ha).2.1⟩
    · have ha' : s.isActive = false := by simpa using ha
      have hnoop : stopScraper s = s := by simp [stopScraper, ha']
      obtain ⟨i1, i2⟩ := reachable_idle_inv doc now s hr ha'
      rw [hnoop]; exact ⟨i1, i2⟩
  refine ⟨hstop.1, hstop.2, ?_, ?_, ?_⟩
  · intro ha'; simp [stopScraper, ha']
  · intro ms; simp [scraperStep, hstop.2]
  · simp [scraperStep, hstop.1]

/-- Witness for C9 at the freshly constructed (idle) scraper. -/
theorem stopScraper_cancels_debounce_witness :
    (stopScraper (initialState [])).debounceTimer = none ∧
    (stopScraper (initialState [])).observer = false ∧
    stopScraper (initialState []) = initialState [] ∧
    scraperStep [] (stopScraper (initialState [])) (.deliver []) = stopScraper (initialState []) ∧
    scraperStep [] (stopScraper (initialState [])) .fireDebounce = stopScraper (initialState []) := by
  obtain ⟨a, b, c, d, e⟩ := stopScraper_cancels_debounce [] [] (initialState []) Reachable.refl
  exact ⟨a, b, c rfl, d [], e⟩
